import Mathlib

/-!
Verification development for the OpenVDB-based self-distance engine
(`openvdb_distance_field.cpp`): the link classifier, the static/active/dynamic
field builders, the adaptive sphere-packing retry loop, the allow-list filter,
and the self-distance query with gradient blending.

The C++ source is shallowly embedded below.  Conventions:
* `float`/`double` scalars are idealized as exact rationals `ℚ` wherever the
  code only compares, adds, subtracts, multiplies or divides them; the two
  vector normalizations (which need a square root) are idealized over `ℝ`.
* Pointers that may be null are `Option`; dereferencing a null pointer is
  modelled as abrupt termination (`none`) of the enclosing operation, and a
  function whose C++ counterpart can crash returns `Option _`.
* OpenVDB grids are external collaborators; a grid is its value function
  `Coord → ℚ`, and a grid transform is the pair of maps the code uses
  (`worldToIndexNodeCentered` and `baseMap()->applyIJT`).
* The kinematic model (MoveIt `RobotModel`) is an external collaborator; it is
  embedded as the record of exactly the queries the code performs on it.
-/

namespace OpenVDBDistanceFieldSpec

/-- Index-space voxel coordinate (`openvdb::math::Coord`). -/
structure Coord where
  i : Int
  j : Int
  k : Int
deriving DecidableEq, Repr

/-- World-space vector with exact rational coordinates (`openvdb::Vec3d` /
`openvdb::Vec3f` as used by the engine, idealized). -/
structure V3 where
  x : ℚ
  y : ℚ
  z : ℚ
deriving DecidableEq, Repr

/-- Component sum of a vector (`openvdb::Vec3f::sum`), the quantity the code
tests against zero before blending a candidate gradient. -/
def V3.sum (v : V3) : ℚ := v.x + v.y + v.z

/-- Squared Euclidean norm of a rational vector. -/
def V3.sqnorm (v : V3) : ℚ := v.x * v.x + v.y * v.y + v.z * v.z

/-- The zero vector. -/
def V3.zero : V3 := ⟨0, 0, 0⟩

/-- Real-valued 3-vector, used once normalization (and hence a square root)
enters the computation (`Eigen::Vector3d res.gradient`). -/
structure R3 where
  x : ℝ
  y : ℝ
  z : ℝ

/-- The zero real vector. -/
def R3.zero : R3 := ⟨0, 0, 0⟩

/-- Vector addition. -/
def R3.add (a b : R3) : R3 := ⟨a.x + b.x, a.y + b.y, a.z + b.z⟩

/-- Scalar multiple. -/
def R3.smul (c : ℝ) (a : R3) : R3 := ⟨c * a.x, c * a.y, c * a.z⟩

/-- Squared Euclidean norm over `ℝ`. -/
def R3.sqnorm (a : R3) : ℝ := a.x * a.x + a.y * a.y + a.z * a.z

/-- Cast a rational vector into the real plane. -/
def V3.toR3 (v : V3) : R3 := ⟨(v.x : ℝ), (v.y : ℝ), (v.z : ℝ)⟩

/-- The `openvdb::Vec3f::normalize` applied to the candidate gradient: divide
by the Euclidean length unless the vector is (approximately, idealized here to
exactly) zero, in which case the vector is left unchanged. -/
noncomputable def vdbNormalize (v : V3) : R3 :=
  if v.sqnorm = 0 then v.toR3
  else R3.smul (Real.sqrt ((v.sqnorm : ℝ)))⁻¹ v.toR3

open Classical in
/-- The `Eigen normalize()` applied to the blended gradient: divide by the
norm when the squared norm is positive, otherwise leave the vector unchanged. -/
noncomputable def eigenNormalize (a : R3) : R3 :=
  if a.sqnorm = 0 then a
  else R3.smul (Real.sqrt a.sqnorm)⁻¹ a

/-- Central-difference index-space gradient
(`openvdb::math::ISGradient<CD_2ND>::result(accessor, ijk)`): half the
difference of the two axis neighbours of the voxel, per axis. -/
def isGradient (acc : Coord → ℚ) (c : Coord) : V3 :=
  ⟨(acc ⟨c.i + 1, c.j, c.k⟩ - acc ⟨c.i - 1, c.j, c.k⟩) / 2,
   (acc ⟨c.i, c.j + 1, c.k⟩ - acc ⟨c.i, c.j - 1, c.k⟩) / 2,
   (acc ⟨c.i, c.j, c.k + 1⟩ - acc ⟨c.i, c.j, c.k - 1⟩) / 2⟩

/-- Default tolerance of the file-local `approxEqual` template (`0.00001`). -/
def approxEps : ℚ := 1 / 100000

/-- The file-local `approxEqual(a, b, eps = 0.00001)`: absolute difference
strictly below the tolerance. -/
def approxEqual (a b : ℚ) : Bool := |a - b| < approxEps

/-- Broad-phase sphere: origin and radius (`SphereModel` element). -/
structure Sphere where
  center : V3
  radius : ℚ
deriving DecidableEq, Repr

/-! ## Allow-list filter (`isCollisionAllowed`, lines 489-504) -/

/-- The three values of `collision_detection::AllowedCollision::Type`. -/
inductive ACType where
  | never
  | conditional
  | always
deriving DecidableEq, Repr

/-- Modelled from the spec: the allow-list (`AllowedCollisionMatrix`, an
external borrowed collaborator, spec section 6) is "a symmetric pairwise
mapping from (name, name) to {always-allowed, not-specified}"; it is embedded
as a list of entries whose lookup matches an unordered name pair (MoveIt's
`setEntry` records both orders, making `getAllowedCollision` symmetric). -/
def ACM := List ((String × String) × ACType)

/-- Pair lookup in the allow-list: the first entry naming the unordered pair
`{a, b}`, mirroring `acm->getAllowedCollision(l1, l2, type)`. -/
def acmLookup (m : ACM) (a b : String) : Option ACType :=
  (m.find? (fun e => (e.1.1 == a && e.1.2 == b) || (e.1.1 == b && e.1.2 == a))).map
    (fun e => e.2)

/-- `CollisionRobotOpenVDB::isCollisionAllowed` (lines 489-504): with a
non-null allow-list, an entry for the pair yields `type == ALWAYS`; with no
entry, or a null allow-list, the answer is `false`. -/
def isCollisionAllowed (l1 l2 : String) (acm : Option ACM) : Bool :=
  match acm with
  | some m =>
    match acmLookup m l1 l2 with
    | some t => t == ACType.always
    | none => false
  | none => false

/-- The query-required decision as used at every call site
(lines 385, 396, 407): the negation of `isCollisionAllowed`. -/
def isQueryRequired (l1 l2 : String) (acm : Option ACM) : Bool :=
  !(isCollisionAllowed l1 l2 acm)

/-! ## Volumetric field point queries (`OpenVDBDistanceField`, lines 601-656) -/

/-- The engine-side state of one `OpenVDBDistanceField`: both the grid pointer
and the cached accessor start null and are set only by a successful
`addShapeToField`.  A grid is embedded as its value function. -/
structure VDBField where
  voxelSize : ℚ
  background : ℚ
  grid : Option (Coord → ℚ)
  accessor : Option (Coord → ℚ)

/-- The `OpenVDBDistanceField(voxel_size, background)` constructor
(lines 601-607): null grid, null accessor. -/
def VDBField.create (voxelSize background : ℚ) : VDBField :=
  { voxelSize := voxelSize, background := background, grid := none, accessor := none }

/-- `OpenVDBDistanceField::getDistance(coord, thread_safe)` (lines 634-650).
Thread-safe mode dereferences the grid pointer unconditionally (null grid:
abrupt failure, `none`); cached mode falls back to logging an error and
returning `0` when the accessor is null. -/
def VDBField.getDistance (f : VDBField) (c : Coord) (threadSafe : Bool) : Option ℚ :=
  if threadSafe then
    match f.grid with
    | some g => some (g c)
    | none => none
  else
    match f.accessor with
    | some a => some (a c)
    | none => some 0

/-! ## Link classifier and static field builder (lines 55-154, 156-179) -/

/-- Links are identified by their unique names. -/
abbrev Link := String

/-- The kinematic model as seen by the classifier: an external borrowed
collaborator (spec section 6), embedded as the record of exactly the queries
the constructor performs on it.  `P` is the type of fixed transforms
(`Eigen::Affine3d`), whose values the engine only forwards. -/
structure RobotModel (P : Type) where
  rootLink : Link
  collisionLinks : List Link
  jointGroups : List (String × List Link)
  fixedTransforms : Link → List (Link × P)
  allLinks : List Link
  idPose : P

/-- Fuel bounding the number of steps of the fixed-transform walk.  The C++
walk terminates because the visited list grows inside a finite link set; the
fuel is a harness bound large enough that a walk over the model's links and
fixed edges never exhausts it (one unit per processed map entry plus one per
descent). -/
def staticFuel {P : Type} (M : RobotModel P) : Nat :=
  ((M.rootLink :: M.allLinks).map (fun l => (M.fixedTransforms l).length)).sum +
    M.allLinks.length + 2

/-- `CollisionRobotOpenVDB::addAssociatedFixedTransforms` (lines 156-179),
processing the list of fixed attachments of one link: each attachment not yet
visited is recorded as visited, and, when it carries collision geometry, a
fresh field is created for it alone at the pose from the map entry and both
`static_links_` and `static_sdf_` grow by one; then the walk recurses into the
attachment before the remaining siblings.  State is
`(visited, staticLinks, staticFields)`. -/
def aaftGo {P : Type} (M : RobotModel P) :
    Nat → List (Link × P) → List Link → List Link → List (Link × P) →
    List Link × List Link × List (Link × P)
  | _, [], vis, st, fl => (vis, st, fl)
  | 0, _ :: _, vis, st, fl => (vis, st, fl)
  | Nat.succ fuel, (c, tf) :: rest, vis, st, fl =>
    if c ∈ vis then aaftGo M fuel rest vis st fl
    else
      let vis1 := vis ++ [c]
      let st1 := if c ∈ M.collisionLinks then st ++ [c] else st
      let fl1 := if c ∈ M.collisionLinks then fl ++ [(c, tf)] else fl
      let r := aaftGo M fuel (M.fixedTransforms c) vis1 st1 fl1
      aaftGo M fuel rest r.1 r.2.1 r.2.2

/-- `CollisionRobotOpenVDB::createStaticSDFs` (lines 55-71): if the root link
itself carries collision geometry it gets its own field at the identity pose;
then the fixed-transform walk starts at the root with an empty visited list.
Returns `(static_links_, static_sdf_)`, a field being recorded as the
`(link, pose)` whose shapes it holds. -/
def createStaticSDFs {P : Type} (M : RobotModel P) : List Link × List (Link × P) :=
  let rootStatic : List Link :=
    if M.rootLink ∈ M.collisionLinks then [M.rootLink] else []
  let rootFields : List (Link × P) :=
    if M.rootLink ∈ M.collisionLinks then [(M.rootLink, M.idPose)] else []
  let w := aaftGo M (staticFuel M) (M.fixedTransforms M.rootLink) [] [] []
  (rootStatic ++ w.2.1, rootFields ++ w.2.2)

/-- The classification half of `CollisionRobotOpenVDB::createActiveSDFs`
(lines 75-88): every joint-group member that carries collision geometry and is
not already active is appended.  No check against the static class is made. -/
def activeLinksOf {P : Type} (M : RobotModel P) : List Link :=
  M.jointGroups.foldl
    (fun acc g =>
      g.2.foldl
        (fun acc2 l =>
          if l ∉ acc2 ∧ l ∈ M.collisionLinks then acc2 ++ [l] else acc2)
        acc)
    []

/-- One `dynamic_links_.erase(std::remove(begin, end, value))` step
(lines 136, 142): `remove` moves the single occurrence of the value to the
tail and `erase` drops it; when the value is absent, `remove` returns `end()`
and `erase(end())` is undefined behaviour — modelled as abrupt failure
(`none`), the file's convention for undefined paths. -/
def eraseRemove (l : List Link) (a : Link) : Option (List Link) :=
  if a ∈ l then some (l.erase a) else none

/-- A chain of `erase(remove(...))` steps over a list of values to remove;
the first undefined step aborts the chain. -/
def eraseChain : List Link → List Link → Option (List Link)
  | l, [] => some l
  | l, a :: as =>
    match eraseRemove l a with
    | some l1 => eraseChain l1 as
    | none => none

/-- The classification half of `CollisionRobotOpenVDB::createDynamicSDFs`
(lines 129-143): start from all collision-bearing links and erase each static
link, then each active link, via `erase(remove(...))`; erasing a value that is
no longer present (which happens exactly when a link was classified both
static and active, so the second loop erases it from a list it already left)
is undefined behaviour, modelled as abrupt failure. -/
def dynamicLinksOf {P : Type} (M : RobotModel P)
    (staticLinks activeLinks : List Link) : Option (List Link) :=
  match eraseChain M.collisionLinks staticLinks with
  | some d1 => eraseChain d1 activeLinks
  | none => none

/-- Modelled from the spec: "Static parts sharing one fixed-transform subtree
are merged into a single field built once" — the number of static fields the
spec prescribes is one per independent fixed subtree containing a static part;
the walk explores only the single subtree rooted at the kinematic root, so the
prescribed count is one whenever any static part exists, zero otherwise. -/
def specStaticFieldCount {P : Type} (M : RobotModel P) : Nat :=
  if (createStaticSDFs M).1.isEmpty then 0 else 1

/-- Fixed attachments of the model `M1`: the root has one fixed child,
`armlink`. -/
def fixedTfM1 : Link → List (Link × Unit)
  | "base" => [("armlink", ())]
  | _ => []

/-- A small kinematic model in which the collision-bearing link `armlink` is
both reachable from the root by a fixed attachment and a member of the
actuated joint group `arm`. -/
def M1 : RobotModel Unit :=
  { rootLink := "base"
    collisionLinks := ["armlink"]
    jointGroups := [("arm", ["armlink"])]
    fixedTransforms := fixedTfM1
    allLinks := ["base", "armlink"]
    idPose := () }

/-- Fixed attachments of the model `M2`: the root has two fixed children. -/
def fixedTfM2 : Link → List (Link × String)
  | "base" => [("a", "tf-base-a"), ("b", "tf-base-b")]
  | _ => []

/-- A kinematic model whose single fixed subtree (rooted at `base`, which has
no collision geometry) contains two collision-bearing static parts. -/
def M2 : RobotModel String :=
  { rootLink := "base"
    collisionLinks := ["a", "b"]
    jointGroups := []
    fixedTransforms := fixedTfM2
    allLinks := ["base", "a", "b"]
    idPose := "id" }

/-- Fixed attachments of the model `M3`: the root has one fixed child. -/
def fixedTfM3 : Link → List (Link × Unit)
  | "base" => [("s1", ())]
  | _ => []

/-- A kinematic model on which the classifier's three classes are well
separated: the root and its fixed child are static, the joint group's member
`a1` is active and not fixed-reachable, and `d1` is left for the dynamic
class, so the dynamic-class erase chain never meets an absent value. -/
def M3 : RobotModel Unit :=
  { rootLink := "base"
    collisionLinks := ["base", "s1", "a1", "d1"]
    jointGroups := [("arm", ["a1"])]
    fixedTransforms := fixedTfM3
    allLinks := ["base", "s1", "a1", "d1"]
    idPose := () }

/-! ## Active-class field builder: adaptive retry loop (lines 92-126, 706-719) -/

/-- One attempt of the retry loop: the voxel size the field was rebuilt at,
the two truncation bands passed to `addLinkToField`, the number of spheres
that attempt's packing call itself returned, and the number of spheres the
loop's exit test reads — the size of the accumulated `active_spheres_[i]`
vector, because `fillWithSpheres` (lines 706-719) appends to the vector it is
given instead of replacing it. -/
structure Attempt where
  v : ℚ
  exB : ℚ
  inB : ℚ
  produced : Nat
  tested : Nat
deriving DecidableEq, Repr

/-- The retry loop inside `createActiveSDFs` (lines 92-118), with the
`fillWithSpheres` call abstracted as the external packer `pack v exB inB`
returning the spheres one call appends for a field built at voxel size `v`
with truncation bands `exB`/`inB`.  Arguments: remaining iterations (10 at the
start), current voxel size `v`, voxel size of the last field actually built,
and the accumulated sphere vector.  Returns the voxel size of the last field
built (the one kept in `active_sdf_[i]`) and the accumulated spheres. -/
def fillSpheresLoop (pack : ℚ → ℚ → ℚ → List Sphere) (voxel ex inb : ℚ) :
    Nat → ℚ → ℚ → List Sphere → ℚ × List Sphere
  | 0, _, lastV, s => (lastV, s)
  | Nat.succ n, v, _, s =>
    let s1 := s ++ pack v ((voxel / v) * ex) ((voxel / v) * inb)
    if 1 < s1.length then (v, s1)
    else fillSpheresLoop pack voxel ex inb n (v * (1 / 2)) v s1

/-- The per-link entry point of the retry loop: nominal voxel size, empty
sphere vector, at most 10 attempts. -/
def buildActiveSpheres (pack : ℚ → ℚ → ℚ → List Sphere) (voxel ex inb : ℚ) :
    ℚ × List Sphere :=
  fillSpheresLoop pack voxel ex inb 10 voxel voxel []

/-- The trace of the retry loop: one `Attempt` per executed iteration,
recording that iteration's rebuild parameters, the spheres its own packing
call produced, and the accumulated count its exit test reads. -/
def fillSpheresTrace (pack : ℚ → ℚ → ℚ → List Sphere) (voxel ex inb : ℚ) :
    Nat → ℚ → List Sphere → List Attempt
  | 0, _, _ => []
  | Nat.succ n, v, s =>
    let p := pack v ((voxel / v) * ex) ((voxel / v) * inb)
    let s1 := s ++ p
    { v := v, exB := (voxel / v) * ex, inB := (voxel / v) * inb,
      produced := p.length, tested := s1.length } ::
      (if 1 < s1.length then []
       else fillSpheresTrace pack voxel ex inb n (v * (1 / 2)) s1)

/-- The full `createActiveSDFs` (lines 73-127): classify the active links,
then build each active link's field and sphere set via the retry loop; the
external packer is supplied per link (its output depends on the link's
geometry). -/
def createActiveSDFs {P : Type} (M : RobotModel P)
    (pack : Link → ℚ → ℚ → ℚ → List Sphere) (voxel ex inb : ℚ) :
    List Link × List (ℚ × List Sphere) :=
  let links := activeLinksOf M
  (links, links.map (fun l => buildActiveSpheres (pack l) voxel ex inb))

/-- A packer that returns exactly one sphere on every call, matching the
observation recorded in the source comment that the packing call always
inserts at least one sphere (line 114). -/
def packOne : ℚ → ℚ → ℚ → List Sphere :=
  fun _ _ _ => [{ center := V3.zero, radius := 1 }]

/-! ## Self-distance query engine (lines 366-599) -/

/-- The mobility-class enum indexing the per-class field arrays
(`Static`, `Dynamic`, `Active`). -/
inductive ClassType where
  | stat
  | dyn
  | act
deriving DecidableEq, Repr

/-- The index-space transform a query needs from a packaged field:
`worldToIndexNodeCentered` maps a world point to its nearest voxel (line 544),
and `baseMap()->applyIJT` maps an index-space gradient into world orientation
(line 577).  OpenVDB transform internals are an external capability
(spec section 6). -/
structure TransformIdx where
  w2i : V3 → Coord
  ijt : V3 → V3

/-- `SDFData` (declared in the repository header, missing from the sources):
a grid accessor paired with the index transform the query uses, built either
from a grid alone (static) or from a grid plus the current state matrix
(active/dynamic). -/
structure SDFData where
  acc : Coord → ℚ
  tfm : TransformIdx

/-- `DistanceQueryData` (declared in the repository header): the per-parent
query-plan template.  Modelled from the spec where the header is missing:
`empty` defaults to true and is cleared only for a parent with a non-empty
sphere set (line 380); the three child lists are parallel arrays. -/
structure DistanceQueryData where
  parentName : String
  empty : Bool := true
  childName : List String := []
  childIndex : List Nat := []
  childType : List ClassType := []
  spheres : List Sphere := []
  gradient : Bool := false

/-- `collision_detection::DistanceResultsData` (external MoveIt result
struct).  Modelled from the spec: a fresh result starts cleared — no gradient
flag and the zero gradient vector ("if total weight is zero, the gradient is
the zero vector and has-gradient is false"). -/
structure DistanceResultsData where
  minDistance : ℚ
  linkName0 : String
  linkName1 : String
  hasNearestPoints : Bool
  hasGradient : Bool
  gradient : R3

/-- One iteration of the inner sphere loop of `distanceSelfHelper`
(lines 542-557): the world-space parent sphere is mapped to its voxel in the
candidate field; a sample not approximately equal to the background, minus the
sphere radius, competes for the candidate minimum, remembering the minimizing
voxel.  State: `(child_min, child_min_ijk, dist_found)`; the voxel starts at
an arbitrary value (uninitialized in C++, read only when a distance was
found). -/
def sphereStep (bg : ℚ) (child : SDFData) (st : ℚ × Coord × Bool) (s : Sphere) :
    ℚ × Coord × Bool :=
  let ijk := child.tfm.w2i s.center
  let d := child.acc ijk
  if approxEqual d bg then st
  else
    let d1 := d - s.radius
    if d1 < st.1 then (d1, ijk, true) else st

/-- The sphere loop itself, starting at `(background, arbitrary voxel, not
found)`. -/
def helperChild (bg : ℚ) (spheres : List Sphere) (child : SDFData) :
    ℚ × Coord × Bool :=
  spheres.foldl (sphereStep bg child) (bg, ⟨0, 0, 0⟩, false)

/-- State threaded through the child loop of `distanceSelfHelper`: the result
under construction, the accumulated weighted gradient sum, and the accumulated
total weight (lines 527-533). -/
structure HelperState where
  res : DistanceResultsData
  gradSum : R3
  totalWeights : ℚ

/-- The parent-minimum update of `distanceSelfHelper` (lines 562-566): a
found candidate distance below the running minimum replaces it and names the
candidate as the nearest neighbour. -/
def updateMin (res : DistanceResultsData) (m : ℚ) (childName : String) :
    DistanceResultsData :=
  if m < res.minDistance then
    { res with minDistance := m, linkName1 := childName }
  else res

/-- The inert field substituted for an out-of-range plan index (a plan index
outside the field array is undefined behaviour in C++ and excluded by
construction). -/
def inertSDF (bg : ℚ) : SDFData :=
  { acc := fun _ => bg, tfm := { w2i := fun _ => ⟨0, 0, 0⟩, ijt := fun v => v } }

/-- One iteration of the child loop of `distanceSelfHelper` (lines 535-585)
for child `(name, index, class)`: run the sphere loop against the child's
field; on a found distance update the parent minimum, and, when gradients were
requested, evaluate the central-difference gradient at the minimizing voxel —
a gradient whose component sum is nonzero contributes `background − child_min`
to the total weight and its normalized world-oriented direction, scaled by
that weight, to the gradient sum, setting the has-gradient flag. -/
noncomputable def helperStep (bg : ℚ) (data : DistanceQueryData)
    (sdfs : ClassType → List SDFData) (st : HelperState)
    (c : String × Nat × ClassType) : HelperState :=
  let childData := (sdfs c.2.2).getD c.2.1 (inertSDF bg)
  let m := helperChild bg data.spheres childData
  if m.2.2 then
    let res1 := updateMin st.res m.1 c.1
    if data.gradient then
      let rawg := isGradient childData.acc m.2.1
      if rawg.sum ≠ 0 then
        let w := bg - m.1
        let g1 := childData.tfm.ijt rawg
        let g2 := vdbNormalize g1
        let g3 := R3.smul (w : ℝ) g2
        { res := { res1 with hasGradient := true },
          gradSum := R3.add st.gradSum g3,
          totalWeights := st.totalWeights + w }
      else { st with res := res1 }
    else { st with res := res1 }
  else st

/-- The child loop of `distanceSelfHelper`, iterating the plan's parallel
child arrays in order. -/
noncomputable def helperLoop (bg : ℚ) (data : DistanceQueryData)
    (sdfs : ClassType → List SDFData) :
    List (String × Nat × ClassType) → HelperState → HelperState
  | [], st => st
  | c :: rest, st => helperLoop bg data sdfs rest (helperStep bg data sdfs st c)

/-- `CollisionRobotOpenVDB::distanceSelfHelper` (lines 525-599) up to, but not
including, the final gradient-blending block: initialization (result at the
background sentinel, parent name recorded, no nearest points) followed by the
child loop.  The three parallel child arrays are iterated via their zip (C++
indexes them by a shared counter; equal lengths are a construction
invariant). -/
noncomputable def distanceSelfHelperFull (bg : ℚ) (data : DistanceQueryData)
    (sdfs : ClassType → List SDFData) : HelperState :=
  let st0 : HelperState :=
    { res := { minDistance := bg, linkName0 := data.parentName, linkName1 := "",
               hasNearestPoints := false, hasGradient := false, gradient := R3.zero },
      gradSum := R3.zero,
      totalWeights := 0 }
  helperLoop bg data sdfs (data.childName.zip (data.childIndex.zip data.childType)) st0

/-- `CollisionRobotOpenVDB::distanceSelfHelper` (lines 525-599): the child
loop followed by the final gradient block (lines 587-598) — when the
has-gradient flag was set, a zero total weight yields the zero gradient
vector (without clearing the flag), and otherwise the gradient sum divided by
the total weight is renormalized. -/
noncomputable def distanceSelfHelper (bg : ℚ) (data : DistanceQueryData)
    (sdfs : ClassType → List SDFData) : DistanceResultsData :=
  let st := distanceSelfHelperFull bg data sdfs
  if st.res.hasGradient then
    if st.totalWeights = 0 then
      { st.res with gradient := R3.zero }
    else
      let g := eigenNormalize
        (R3.mk (st.gradSum.x / (st.totalWeights : ℝ))
          (st.gradSum.y / (st.totalWeights : ℝ))
          (st.gradSum.z / (st.totalWeights : ℝ)))
      { st.res with gradient := g }
  else st.res

/-- `CollisionRobotOpenVDB::createDefaultDistanceQuery` (lines 366-417): one
plan per active link; a parent without spheres keeps the default (empty) plan;
otherwise the plan's candidate children are every other active link, every
dynamic link, and every static link whose pairing with the parent is not
explicitly always-allowed. -/
def createDefaultDistanceQuery (activeLinks dynamicLinks staticLinks : List String)
    (activeSpheres : List (List Sphere)) (acm : Option ACM) :
    List DistanceQueryData :=
  (List.range activeLinks.length).map (fun j =>
    let parent := activeLinks.getD j ""
    if (activeSpheres.getD j []).length = 0 then
      { parentName := parent }
    else
      let actC := (List.range activeLinks.length).filterMap (fun i =>
        if i ≠ j ∧ isCollisionAllowed (activeLinks.getD i "") parent acm = false then
          some (activeLinks.getD i "", i, ClassType.act)
        else none)
      let dynC := (List.range dynamicLinks.length).filterMap (fun i =>
        if isCollisionAllowed (dynamicLinks.getD i "") parent acm = false then
          some (dynamicLinks.getD i "", i, ClassType.dyn)
        else none)
      let staC := (List.range staticLinks.length).filterMap (fun i =>
        if isCollisionAllowed (staticLinks.getD i "") parent acm = false then
          some (staticLinks.getD i "", i, ClassType.stat)
        else none)
      let cs := actC ++ dynC ++ staC
      { parentName := parent, empty := false,
        childName := cs.map (fun c => c.1),
        childIndex := cs.map (fun c => c.2.1),
        childType := cs.map (fun c => c.2.2),
        spheres := [], gradient := false })

/-- The two request fields `distanceSelf` reads (`group_name`, `gradient`). -/
structure DistanceRequest where
  groupName : String
  gradient : Bool

/-- Per-link packaging of the robot state's current world transform: the map
applied to the cached sphere centers (lines 440-441) and the index transform
of the `SDFData` built from the link's grid and the current matrix
(lines 445-446 for active after the transpose, lines 452-455 for dynamic).
The matrix plumbing through OpenVDB is an external capability. -/
structure LinkState where
  applyPoint : V3 → V3
  idxTf : TransformIdx

/-- The robot state: current world-transform data per link name
(`state.getGlobalLinkTransform`). -/
def RobotState := Link → LinkState

/-- The constructed engine state `distanceSelf` reads: scalar parameters, the
joint-group directory of the kinematic model (`getJointModelGroup` non-null
test), the three classified link lists with their fields, the cached
per-active-link sphere sets, and the query-plan template `dist_query_`. -/
structure Engine where
  background : ℚ
  hasGroup : String → Bool
  activeLinks : List Link
  dynamicLinks : List Link
  staticLinks : List Link
  activeSpheres : List (List Sphere)
  activeGrids : List (Coord → ℚ)
  dynamicGrids : List (Coord → ℚ)
  staticSDF : List SDFData
  distQuery : List DistanceQueryData

/-- `std::map::insert` on the result map `res.distance` (line 472): keeps the
entries ordered by key and does not overwrite an existing key. -/
def mapInsert : List (String × DistanceResultsData) → String → DistanceResultsData →
    List (String × DistanceResultsData)
  | [], k, v => [(k, v)]
  | (k1, v1) :: t, k, v =>
    if k < k1 then (k, v) :: (k1, v1) :: t
    else if k = k1 then (k1, v1) :: t
    else (k1, v1) :: mapInsert t k v

/-- `std::map` subscript lookup (`res.distance[index]`, line 486); when this
line is reached the index is a present key, so the default is inert. -/
def mapFindD (l : List (String × DistanceResultsData)) (k : String) :
    DistanceResultsData :=
  ((l.find? (fun e => e.1 == k)).map (fun e => e.2)).getD
    { minDistance := 0, linkName0 := "", linkName1 := "",
      hasNearestPoints := false, hasGradient := false, gradient := R3.zero }

/-- The result object `distanceSelf` fills: the ordered per-parent result map
and the global-minimum entry. -/
structure DistanceResult where
  distance : List (String × DistanceResultsData)
  minimumDistance : DistanceResultsData

/-- The body of `distanceSelf` after the group fetch (lines 432-487): refresh
the first `active_links_.size()` plans with world-frame spheres and the
request's gradient flag, package each active and dynamic grid with its current
state transform, run the narrow phase for every non-empty plan inserting each
per-parent result keyed by the parent name, and scan for the global minimum.
The scan starts by dereferencing `res.distance.begin()` (line 477), undefined
behaviour on an empty map — modelled as abrupt failure. -/
noncomputable def distanceSelfBody (E : Engine) (grad : Bool) (st : RobotState) :
    Option DistanceResult :=
  let dq := E.distQuery.enum.map (fun p =>
    if p.1 < E.activeLinks.length then
      { p.2 with
          spheres := (E.activeSpheres.getD p.1 []).map
            (fun s => { center := (st (E.activeLinks.getD p.1 "")).applyPoint s.center,
                        radius := s.radius }),
          gradient := grad }
    else p.2)
  let dataActive := (List.range E.activeLinks.length).map (fun i =>
    SDFData.mk (E.activeGrids.getD i (fun _ => E.background))
      (st (E.activeLinks.getD i "")).idxTf)
  let dataDynamic := (List.range E.dynamicLinks.length).map (fun i =>
    SDFData.mk (E.dynamicGrids.getD i (fun _ => E.background))
      (st (E.dynamicLinks.getD i "")).idxTf)
  let sdfs : ClassType → List SDFData := fun c =>
    match c with
    | ClassType.stat => E.staticSDF
    | ClassType.dyn => dataDynamic
    | ClassType.act => dataActive
  let resDistance := dq.foldl
    (fun acc q =>
      if q.empty then acc
      else
        let d := distanceSelfHelper E.background q sdfs
        mapInsert acc d.linkName0 d)
    []
  match resDistance with
  | [] => none
  | first :: _ =>
    let scan := resDistance.foldl
      (fun (p : String × ℚ) kv =>
        if kv.2.minDistance < p.2 then (kv.2.linkName0, kv.2.minDistance) else p)
      (first.2.linkName0, E.background)
    some { distance := resDistance, minimumDistance := mapFindD resDistance scan.1 }

/-- `CollisionRobotOpenVDB::distanceSelf` (lines 419-487).  Line 429 fetches
the joint group named by the request; when the model has no such group the
returned pointer is null and line 430 dereferences it — abrupt failure before
any write to the result.  The link-name list fetched on line 430 is never used
afterwards, so the body depends on the request only through its gradient
flag. -/
noncomputable def distanceSelf (E : Engine) (req : DistanceRequest)
    (st : RobotState) : Option DistanceResult :=
  if E.hasGroup req.groupName then distanceSelfBody E req.gradient st
  else none

/-! ## Concrete instances used by the theorems -/

/-- Inert index transform for concrete runs: every world point maps to the
origin voxel; gradients keep their orientation. -/
def tfm0 : TransformIdx := { w2i := fun _ => ⟨0, 0, 0⟩, ijt := fun v => v }

/-- Candidate field whose central-difference gradient at the origin voxel is
`(1, -1, 0)` — a nonzero vector whose components sum to zero — and whose
origin sample is the valid (non-background) distance `5` against background
`10`. -/
def accSumZero : Coord → ℚ := fun c =>
  if c = ⟨1, 0, 0⟩ then 1
  else if c = ⟨-1, 0, 0⟩ then -1
  else if c = ⟨0, 1, 0⟩ then -1
  else if c = ⟨0, -1, 0⟩ then 1
  else if c = ⟨0, 0, 0⟩ then 5
  else 10

/-- A one-candidate query plan with a single zero-radius parent sphere at the
origin and gradients requested. -/
def dataSumZero : DistanceQueryData :=
  { parentName := "p", empty := false, childName := ["c1"], childIndex := [0],
    childType := [ClassType.act],
    spheres := [{ center := V3.zero, radius := 0 }], gradient := true }

/-- Field arrays for the one-candidate plan. -/
def sdfsSumZero : ClassType → List SDFData := fun c =>
  match c with
  | ClassType.act => [{ acc := accSumZero, tfm := tfm0 }]
  | _ => []

/-- Candidate field with central-difference gradient `(1, 0, 0)` at the origin
voxel and origin sample `5` against background `10`. -/
def accPlusX : Coord → ℚ := fun c =>
  if c = ⟨1, 0, 0⟩ then 1
  else if c = ⟨-1, 0, 0⟩ then -1
  else if c = ⟨0, 0, 0⟩ then 5
  else 10

/-- Candidate field with central-difference gradient `(-1, 0, 0)` at the
origin voxel and origin sample `5` against background `10`. -/
def accMinusX : Coord → ℚ := fun c =>
  if c = ⟨1, 0, 0⟩ then -1
  else if c = ⟨-1, 0, 0⟩ then 1
  else if c = ⟨0, 0, 0⟩ then 5
  else 10

/-- A two-candidate query plan with a single zero-radius parent sphere at the
origin and gradients requested; the two candidates sit at equal distance with
exactly opposite gradients. -/
def dataCancel : DistanceQueryData :=
  { parentName := "p", empty := false, childName := ["c1", "c2"],
    childIndex := [0, 1], childType := [ClassType.act, ClassType.act],
    spheres := [{ center := V3.zero, radius := 0 }], gradient := true }

/-- Field arrays for the two-candidate plan. -/
def sdfsCancel : ClassType → List SDFData := fun c =>
  match c with
  | ClassType.act =>
    [{ acc := accPlusX, tfm := tfm0 }, { acc := accMinusX, tfm := tfm0 }]
  | _ => []

/-- A robot state with inert transforms for concrete runs. -/
def stateId : RobotState := fun _ => { applyPoint := fun v => v, idxTf := tfm0 }

/-- An engine built over a model with zero active parts: every group name is
known, no link was classified active, and `createDefaultDistanceQuery`
produced no plans. -/
def engineNoActive : Engine :=
  { background := 10
    hasGroup := fun _ => true
    activeLinks := []
    dynamicLinks := ["d1"]
    staticLinks := ["s1"]
    activeSpheres := []
    activeGrids := []
    dynamicGrids := [fun _ => 10]
    staticSDF := [{ acc := fun _ => 10, tfm := tfm0 }]
    distQuery := createDefaultDistanceQuery [] ["d1"] ["s1"] [] none }

/-- An engine with one active part whose sphere set is empty, so its single
query plan stays marked empty. -/
def engineEmptyPlans : Engine :=
  { background := 10
    hasGroup := fun _ => true
    activeLinks := ["a1"]
    dynamicLinks := []
    staticLinks := []
    activeSpheres := [[]]
    activeGrids := [fun _ => 10]
    dynamicGrids := []
    staticSDF := []
    distQuery := createDefaultDistanceQuery ["a1"] [] [] [[]] none }

/-- The sphere set of the single active part of `engineTwoGroups`. -/
def sphereSetA1 : List Sphere := [{ center := V3.zero, radius := 0 }]

/-- An engine whose model knows the two joint groups `left` and `right` and
owns one active part with a sphere and one dynamic neighbour, exercising
group-independence on a nontrivial query. -/
def engineTwoGroups : Engine :=
  { background := 10
    hasGroup := fun g => g == "left" || g == "right"
    activeLinks := ["a1"]
    dynamicLinks := ["d1"]
    staticLinks := []
    activeSpheres := [sphereSetA1]
    activeGrids := [fun _ => 10]
    dynamicGrids := [accPlusX]
    staticSDF := []
    distQuery := createDefaultDistanceQuery ["a1"] ["d1"] [] [sphereSetA1] none }

/-- An engine over a model with no joint groups at all. -/
def engineNoGroups : Engine :=
  { background := 10
    hasGroup := fun _ => false
    activeLinks := []
    dynamicLinks := []
    staticLinks := []
    activeSpheres := []
    activeGrids := []
    dynamicGrids := []
    staticSDF := []
    distQuery := [] }

/-! ## Supporting lemmas -/

/-- Extensionality for real vectors. -/
theorem R3.ext_iff {a b : R3} : a = b ↔ a.x = b.x ∧ a.y = b.y ∧ a.z = b.z := by
  constructor
  · intro h; subst h; exact ⟨rfl, rfl, rfl⟩
  · intro h
    cases a; cases b
    simp only [R3.mk.injEq]
    exact ⟨h.1, h.2.1, h.2.2⟩

/-! ### Lemmas about chains of `erase(remove(...))` (dynamic-class construction) -/

/-- A completed erase chain yields a sublist of its input. -/
theorem eraseChain_sublist : ∀ (as l d : List Link),
    eraseChain l as = some d → List.Sublist d l := by
  intro as
  induction as with
  | nil =>
    intro l d h
    simp only [eraseChain, Option.some.injEq] at h
    subst h
    exact List.Sublist.refl _
  | cons a as ih =>
    intro l d h
    simp only [eraseChain, eraseRemove] at h
    by_cases ha : a ∈ l
    · rw [if_pos ha] at h
      exact (ih _ _ h).trans (List.erase_sublist a l)
    · rw [if_neg ha] at h
      cases h

/-- An element occurring at most once that a completed chain erases does not
survive the chain. -/
theorem eraseChain_not_mem : ∀ (as l d : List Link) (a : Link),
    a ∈ as → l.count a ≤ 1 → eraseChain l as = some d → a ∉ d := by
  intro as
  induction as with
  | nil => intro l d a ha; cases ha
  | cons b bs ih =>
    intro l d a ha hc h
    simp only [eraseChain, eraseRemove] at h
    by_cases hb : b ∈ l
    · rw [if_pos hb] at h
      by_cases hab : a = b
      · subst hab
        have hpos : l.count a ≠ 0 := fun h0 => (List.count_eq_zero.mp h0) hb
        have h0 : (l.erase a).count a = 0 := by
          rw [List.count_erase_self]
          omega
        have hnm : a ∉ l.erase a := List.count_eq_zero.mp h0
        intro hd
        exact hnm ((eraseChain_sublist bs _ d h).subset hd)
      · have ha' : a ∈ bs := by
          rcases List.mem_cons.mp ha with h1 | h1
          · exact absurd h1 hab
          · exact h1
        have hc' : (l.erase b).count a ≤ 1 :=
          le_trans ((List.erase_sublist b l).count_le a) hc
        exact ih _ _ a ha' hc' h
    · rw [if_neg hb] at h
      cases h

/-- An element erased by no member of a completed chain survives the chain. -/
theorem eraseChain_mem : ∀ (as l d : List Link) (a : Link),
    a ∉ as → a ∈ l → eraseChain l as = some d → a ∈ d := by
  intro as
  induction as with
  | nil =>
    intro l d a _ hl h
    simp only [eraseChain, Option.some.injEq] at h
    subst h
    exact hl
  | cons b bs ih =>
    intro l d a ha hl h
    simp only [eraseChain, eraseRemove] at h
    by_cases hb : b ∈ l
    · rw [if_pos hb] at h
      have hab : a ≠ b := fun he => ha (by simp [he])
      exact ih _ _ a (fun h2 => ha (List.mem_cons_of_mem _ h2))
        ((List.mem_erase_of_ne hab).mpr hl) h
    · rw [if_neg hb] at h
      cases h

/-- The walk keeps `static_sdf_` and `static_links_` in lockstep: the fields it
accumulates name exactly the static links it accumulates, in order. -/
theorem aaftGo_map_fst {P : Type} (M : RobotModel P) (fuel : Nat) :
    ∀ (l : List (Link × P)) (vis st : List Link) (fl : List (Link × P)),
      fl.map Prod.fst = st →
      ((aaftGo M fuel l vis st fl).2.2).map Prod.fst =
        (aaftGo M fuel l vis st fl).2.1 := by
  induction fuel with
  | zero =>
    intro l vis st fl h
    cases l with
    | nil => simpa [aaftGo] using h
    | cons hd tl => simpa [aaftGo] using h
  | succ fuel ih =>
    intro l vis st fl h
    cases l with
    | nil => simpa [aaftGo] using h
    | cons hd tl =>
      obtain ⟨c, tf⟩ := hd
      by_cases hv : c ∈ vis
      · simpa [aaftGo, hv] using ih tl vis st fl h
      · have h1 : (if c ∈ M.collisionLinks then fl ++ [(c, tf)] else fl).map Prod.fst =
            (if c ∈ M.collisionLinks then st ++ [c] else st) := by
          by_cases hcl : c ∈ M.collisionLinks <;> simp [hcl, h]
        have h2 := ih (M.fixedTransforms c) (vis ++ [c]) _ _ h1
        simpa [aaftGo, hv] using ih tl _ _ _ h2

/-! ### Allow-list lookup lemmas -/

/-- `find?` only depends on the pointwise behaviour of its predicate. -/
theorem find?_congr {α : Type} {p q : α → Bool} (l : List α)
    (h : ∀ x, p x = q x) : l.find? p = l.find? q := by
  induction l with
  | nil => rfl
  | cons a t ih => simp only [List.find?, h a, ih]

/-- Allow-list lookup is symmetric in the two names: each entry matches the
unordered pair. -/
theorem acmLookup_symm (m : ACM) (a b : String) :
    acmLookup m a b = acmLookup m b a := by
  unfold acmLookup
  rw [find?_congr m (fun e => Bool.or_comm _ _)]

/-! ### Sphere-loop and child-loop invariants -/

/-- The sphere loop keeps the candidate minimum at or below the background and
strictly below it once a distance was found. -/
theorem sphereStep_invariant (bg : ℚ) (child : SDFData) (st : ℚ × Coord × Bool)
    (s : Sphere) (h1 : st.1 ≤ bg) (h2 : st.2.2 = true → st.1 < bg) :
    (sphereStep bg child st s).1 ≤ bg ∧
      ((sphereStep bg child st s).2.2 = true → (sphereStep bg child st s).1 < bg) := by
  unfold sphereStep
  by_cases hae : approxEqual (child.acc (child.tfm.w2i s.center)) bg
  · simpa [hae] using ⟨h1, h2⟩
  · by_cases hlt : child.acc (child.tfm.w2i s.center) - s.radius < st.1
    · constructor
      · simp only [hae, hlt]
        simp only [Bool.false_eq_true, if_false, if_true]
        exact le_of_lt (lt_of_lt_of_le hlt h1)
      · intro _
        simp only [hae, hlt]
        simp only [Bool.false_eq_true, if_false, if_true]
        exact lt_of_lt_of_le hlt h1
    · simpa [hae, hlt] using ⟨h1, h2⟩

/-- A found candidate distance is strictly below the background. -/
theorem helperChild_found_lt (bg : ℚ) (spheres : List Sphere) (child : SDFData)
    (h : (helperChild bg spheres child).2.2 = true) :
    (helperChild bg spheres child).1 < bg := by
  unfold helperChild at *
  suffices hgen : ∀ (l : List Sphere) (st : ℚ × Coord × Bool),
      st.1 ≤ bg → (st.2.2 = true → st.1 < bg) →
      (l.foldl (sphereStep bg child) st).1 ≤ bg ∧
        ((l.foldl (sphereStep bg child) st).2.2 = true →
          (l.foldl (sphereStep bg child) st).1 < bg) by
    exact (hgen spheres (bg, ⟨0, 0, 0⟩, false) le_rfl (by simp)).2 h
  intro l
  induction l with
  | nil => intro st h1 h2; exact ⟨h1, h2⟩
  | cons s t ih =>
    intro st h1 h2
    simp only [List.foldl_cons]
    obtain ⟨g1, g2⟩ := sphereStep_invariant bg child st s h1 h2
    exact ih _ g1 g2

/-- `updateMin` does not touch the has-gradient flag. -/
theorem updateMin_hasGradient (res : DistanceResultsData) (m : ℚ) (n : String) :
    (updateMin res m n).hasGradient = res.hasGradient := by
  unfold updateMin; split <;> rfl

/-- `updateMin` does not touch the gradient vector. -/
theorem updateMin_gradient (res : DistanceResultsData) (m : ℚ) (n : String) :
    (updateMin res m n).gradient = res.gradient := by
  unfold updateMin; split <;> rfl

/-- One child-loop step never writes the gradient field of the result under
construction. -/
theorem helperStep_gradient (bg : ℚ) (data : DistanceQueryData)
    (sdfs : ClassType → List SDFData) (st : HelperState)
    (c : String × Nat × ClassType) :
    (helperStep bg data sdfs st c).res.gradient = st.res.gradient := by
  simp only [helperStep]
  split
  · split
    · split
      · exact updateMin_gradient st.res _ c.1
      · exact updateMin_gradient st.res _ c.1
    · exact updateMin_gradient st.res _ c.1
  · rfl

/-- The child loop never writes the gradient field of the result under
construction. -/
theorem helperLoop_gradient_unchanged (bg : ℚ) (data : DistanceQueryData)
    (sdfs : ClassType → List SDFData) :
    ∀ (cs : List (String × Nat × ClassType)) (st : HelperState),
      (helperLoop bg data sdfs cs st).res.gradient = st.res.gradient := by
  intro cs
  induction cs with
  | nil => intro st; rfl
  | cons c rest ih =>
    intro st
    rw [helperLoop, ih, helperStep_gradient]

/-- One child-loop step keeps the total weight nonnegative, and strictly
positive once the has-gradient flag is set: a contribution is
`background − child_min` for a found (hence strictly closer) candidate. -/
theorem helperStep_weights (bg : ℚ) (data : DistanceQueryData)
    (sdfs : ClassType → List SDFData) (st : HelperState)
    (c : String × Nat × ClassType)
    (h1 : 0 ≤ st.totalWeights) (h2 : st.res.hasGradient = true → 0 < st.totalWeights) :
    0 ≤ (helperStep bg data sdfs st c).totalWeights ∧
      ((helperStep bg data sdfs st c).res.hasGradient = true →
        0 < (helperStep bg data sdfs st c).totalWeights) := by
  simp only [helperStep]
  split
  next hf =>
    have hlt := helperChild_found_lt bg data.spheres
      ((sdfs c.2.2).getD c.2.1 (inertSDF bg)) hf
    split
    · split
      · exact ⟨by dsimp only; linarith, fun _ => by dsimp only; linarith⟩
      · exact ⟨h1, fun hg => h2 (by
          rwa [show ({ st with res := updateMin st.res (helperChild bg data.spheres
              ((sdfs c.2.2).getD c.2.1 (inertSDF bg))).1 c.1 } :
              HelperState).res.hasGradient =
            st.res.hasGradient from updateMin_hasGradient st.res _ c.1] at hg)⟩
    · exact ⟨h1, fun hg => h2 (by
        rwa [show ({ st with res := updateMin st.res (helperChild bg data.spheres
            ((sdfs c.2.2).getD c.2.1 (inertSDF bg))).1 c.1 } :
            HelperState).res.hasGradient =
          st.res.hasGradient from updateMin_hasGradient st.res _ c.1] at hg)⟩
  next hf => exact ⟨h1, h2⟩

/-- The child loop keeps the total weight nonnegative and strictly positive
once the has-gradient flag is set. -/
theorem helperLoop_weights (bg : ℚ) (data : DistanceQueryData)
    (sdfs : ClassType → List SDFData) :
    ∀ (cs : List (String × Nat × ClassType)) (st : HelperState),
      0 ≤ st.totalWeights →
      (st.res.hasGradient = true → 0 < st.totalWeights) →
      0 ≤ (helperLoop bg data sdfs cs st).totalWeights ∧
        ((helperLoop bg data sdfs cs st).res.hasGradient = true →
          0 < (helperLoop bg data sdfs cs st).totalWeights) := by
  intro cs
  induction cs with
  | nil => intro st h1 h2; exact ⟨h1, h2⟩
  | cons c rest ih =>
    intro st h1 h2
    rw [helperLoop]
    obtain ⟨g1, g2⟩ := helperStep_weights bg data sdfs st c h1 h2
    exact ih _ g1 g2

/-! ### Normalization lemmas -/

/-- A real vector with zero squared norm is the zero vector. -/
theorem R3.sqnorm_eq_zero {a : R3} (h : R3.sqnorm a = 0) : a = R3.zero := by
  unfold R3.sqnorm at h
  have hx : a.x * a.x = 0 := by
    nlinarith [mul_self_nonneg a.x, mul_self_nonneg a.y, mul_self_nonneg a.z]
  have hy : a.y * a.y = 0 := by
    nlinarith [mul_self_nonneg a.x, mul_self_nonneg a.y, mul_self_nonneg a.z]
  have hz : a.z * a.z = 0 := by
    nlinarith [mul_self_nonneg a.x, mul_self_nonneg a.y, mul_self_nonneg a.z]
  rw [R3.ext_iff]
  exact ⟨mul_self_eq_zero.mp hx, mul_self_eq_zero.mp hy, mul_self_eq_zero.mp hz⟩

/-- The squared norm is nonnegative. -/
theorem R3.sqnorm_nonneg (a : R3) : 0 ≤ R3.sqnorm a := by
  unfold R3.sqnorm
  nlinarith [mul_self_nonneg a.x, mul_self_nonneg a.y, mul_self_nonneg a.z]

/-- `eigenNormalize` yields a unit vector or (exactly when its input is the
zero vector) the zero vector. -/
theorem eigenNormalize_unit_or_zero (a : R3) :
    R3.sqnorm (eigenNormalize a) = 1 ∨ eigenNormalize a = R3.zero := by
  unfold eigenNormalize
  by_cases h : R3.sqnorm a = 0
  · right
    simp only [h, if_true]
    exact R3.sqnorm_eq_zero h
  · left
    simp only [h, if_false]
    have hpos : 0 < R3.sqnorm a := lt_of_le_of_ne (R3.sqnorm_nonneg a) (Ne.symm h)
    have hs : Real.sqrt (R3.sqnorm a) * Real.sqrt (R3.sqnorm a) = R3.sqnorm a :=
      Real.mul_self_sqrt (le_of_lt hpos)
    have hsp : 0 < Real.sqrt (R3.sqnorm a) := Real.sqrt_pos.mpr hpos
    unfold R3.sqnorm R3.smul at *
    field_simp

/-! ### Retry-loop trace lemmas -/
theorem fillSpheresTrace_length_le (pack : ℚ → ℚ → ℚ → List Sphere)
    (voxel ex inb : ℚ) :
    ∀ (n : Nat) (v : ℚ) (s : List Sphere),
      (fillSpheresTrace pack voxel ex inb n v s).length ≤ n := by
  intro n
  induction n with
  | zero => intro v s; simp [fillSpheresTrace]
  | succ n ih =>
    intro v s
    simp only [fillSpheresTrace]
    split
    · simp
    · simpa using Nat.succ_le_succ (ih _ _)

theorem fillSpheresTrace_length_pos (pack : ℚ → ℚ → ℚ → List Sphere)
    (voxel ex inb : ℚ) :
    ∀ (n : Nat) (v : ℚ) (s : List Sphere), 0 < n →
      0 < (fillSpheresTrace pack voxel ex inb n v s).length := by
  intro n v s hn
  cases n with
  | zero => omega
  | succ n => simp [fillSpheresTrace]

theorem fillSpheresTrace_entry (pack : ℚ → ℚ → ℚ → List Sphere)
    (voxel ex inb : ℚ) (hv : voxel ≠ 0) :
    ∀ (n k : Nat) (v : ℚ) (s : List Sphere), v = voxel / 2 ^ k →
      ∀ (j : Nat) (a : Attempt),
        (fillSpheresTrace pack voxel ex inb n v s)[j]? = some a →
        a.v = voxel / 2 ^ (k + j) ∧ a.exB = 2 ^ (k + j) * ex ∧
          a.inB = 2 ^ (k + j) * inb := by
  intro n
  induction n with
  | zero => intro k v s hvk j a ha; simp [fillSpheresTrace] at ha
  | succ n ih =>
    intro k v s hvk j a ha
    have hratio : voxel / v = 2 ^ k := by
      subst hvk
      have h2k : (2 : ℚ) ^ k ≠ 0 := pow_ne_zero k two_ne_zero
      field_simp
    have hhalf : v * (1 / 2) = voxel / 2 ^ (k + 1) := by
      subst hvk
      rw [div_mul_div_comm, mul_one, pow_succ]
    cases j with
    | zero =>
      simp only [fillSpheresTrace, List.getElem?_cons_zero, Option.some_inj] at ha
      subst ha
      refine ⟨by simpa using hvk, by rw [hratio]; norm_num, by rw [hratio]; norm_num⟩
    | succ j =>
      simp only [fillSpheresTrace, List.getElem?_cons_succ] at ha
      by_cases hb : 1 < (s ++ pack v ((voxel / v) * ex) ((voxel / v) * inb)).length
      · rw [if_pos hb] at ha
        simp at ha
      · rw [if_neg hb] at ha
        have hres := ih (k + 1) (v * (1 / 2)) _ hhalf j a ha
        have hk : k + 1 + j = k + (j + 1) := by omega
        rw [hk] at hres
        exact hres

theorem fillSpheresTrace_tested (pack : ℚ → ℚ → ℚ → List Sphere)
    (voxel ex inb : ℚ) :
    ∀ (n : Nat) (v : ℚ) (s : List Sphere) (j : Nat) (a : Attempt),
      (fillSpheresTrace pack voxel ex inb n v s)[j]? = some a →
      a.tested = s.length +
        (((fillSpheresTrace pack voxel ex inb n v s).take (j + 1)).map
          Attempt.produced).sum := by
  intro n
  induction n with
  | zero => intro v s j a ha; simp [fillSpheresTrace] at ha
  | succ n ih =>
    intro v s j a ha
    cases j with
    | zero =>
      simp only [fillSpheresTrace, List.getElem?_cons_zero, Option.some_inj] at ha
      subst ha
      have htake : (fillSpheresTrace pack voxel ex inb (n + 1) v s).take (0 + 1) =
          [{ v := v, exB := (voxel / v) * ex, inB := (voxel / v) * inb,
             produced := (pack v ((voxel / v) * ex) ((voxel / v) * inb)).length,
             tested := (s ++ pack v ((voxel / v) * ex) ((voxel / v) * inb)).length }] := by
        simp only [fillSpheresTrace]
        split <;> rfl
      rw [htake]
      simp [List.length_append]
    | succ j =>
      simp only [fillSpheresTrace, List.getElem?_cons_succ] at ha
      by_cases hb : 1 < (s ++ pack v ((voxel / v) * ex) ((voxel / v) * inb)).length
      · rw [if_pos hb] at ha
        simp at ha
      · rw [if_neg hb] at ha
        have htest := ih (v * (1 / 2)) _ j a ha
        rw [List.length_append] at htest
        simp only [fillSpheresTrace]
        rw [if_neg hb]
        simp only [List.take_succ_cons, List.map_cons, List.sum_cons]
        omega

theorem fillSpheresTrace_continue (pack : ℚ → ℚ → ℚ → List Sphere)
    (voxel ex inb : ℚ) :
    ∀ (n : Nat) (v : ℚ) (s : List Sphere) (j : Nat) (a : Attempt),
      (fillSpheresTrace pack voxel ex inb n v s)[j]? = some a →
      a.tested ≤ 1 → j + 1 < n →
      j + 1 < (fillSpheresTrace pack voxel ex inb n v s).length := by
  intro n
  induction n with
  | zero => intro v s j a ha; simp [fillSpheresTrace] at ha
  | succ n ih =>
    intro v s j a ha hle hlt
    cases j with
    | zero =>
      simp only [fillSpheresTrace, List.getElem?_cons_zero, Option.some_inj] at ha
      subst ha
      have hb : ¬ 1 < (s ++ pack v ((voxel / v) * ex) ((voxel / v) * inb)).length := by
        simpa using hle
      have hpos := fillSpheresTrace_length_pos pack voxel ex inb n (v * (1 / 2))
        (s ++ pack v ((voxel / v) * ex) ((voxel / v) * inb)) (by omega)
      simp only [fillSpheresTrace, if_neg hb, List.length_cons]
      omega
    | succ j =>
      simp only [fillSpheresTrace, List.getElem?_cons_succ] at ha
      by_cases hb : 1 < (s ++ pack v ((voxel / v) * ex) ((voxel / v) * inb)).length
      · rw [if_pos hb] at ha
        simp at ha
      · rw [if_neg hb] at ha
        have := ih (v * (1 / 2)) _ j a ha hle (by omega)
        simp only [fillSpheresTrace, if_neg hb, List.length_cons]
        omega

theorem fillSpheresTrace_stop (pack : ℚ → ℚ → ℚ → List Sphere)
    (voxel ex inb : ℚ) :
    ∀ (n : Nat) (v : ℚ) (s : List Sphere) (j : Nat) (a : Attempt),
      (fillSpheresTrace pack voxel ex inb n v s)[j]? = some a →
      1 < a.tested →
      (fillSpheresTrace pack voxel ex inb n v s).length = j + 1 := by
  intro n
  induction n with
  | zero => intro v s j a ha; simp [fillSpheresTrace] at ha
  | succ n ih =>
    intro v s j a ha hgt
    cases j with
    | zero =>
      simp only [fillSpheresTrace, List.getElem?_cons_zero, Option.some_inj] at ha
      subst ha
      have hb : 1 < (s ++ pack v ((voxel / v) * ex) ((voxel / v) * inb)).length := hgt
      simp only [fillSpheresTrace]
      rw [if_pos hb]
      rfl
    | succ j =>
      simp only [fillSpheresTrace, List.getElem?_cons_succ] at ha
      by_cases hb : 1 < (s ++ pack v ((voxel / v) * ex) ((voxel / v) * inb)).length
      · rw [if_pos hb] at ha
        simp at ha
      · rw [if_neg hb] at ha
        have := ih (v * (1 / 2)) _ j a ha hgt
        simp only [fillSpheresTrace]
        rw [if_neg hb]
        simp only [List.length_cons]
        omega

/-! ## Claim theorems -/

/-- C1 (counterexample): the three mobility classes do not partition the
collision-bearing links.  In the model `M1`, the collision-bearing link
`armlink` is reachable from the root by a fixed attachment and is a member of
the actuated joint group `arm`; the classifier places it in both
`static_links_` and `active_links_`, because `createActiveSDFs` checks
membership in the active list and collision geometry but never checks the
static class.  In exactly this situation the dynamic-class construction then
erases `armlink` a second time from a list it already left —
`erase(remove(...))` of an absent value, undefined behaviour — so on `M1` the
construction aborts instead of producing a class list at all. -/
theorem C1_partition_cex :
    ("armlink" ∈ (createStaticSDFs M1).1 ∧ "armlink" ∈ activeLinksOf M1) ∧
    dynamicLinksOf M1 (createStaticSDFs M1).1 (activeLinksOf M1) = none := by
  decide

/-- C1 (amended): for every kinematic model whose collision-link list has no
duplicates, whenever the dynamic-class construction completes (its
`erase(remove(...))` chain never meets an absent value), the three classes
cover all collision-bearing links and the completed dynamic class is disjoint
from both the static and the active class; static and active, however, may
overlap, and in that case the dynamic construction hits the undefined erase
and aborts (see the counterexample). -/
theorem C1_cover_dynamic_disjoint {P : Type} (M : RobotModel P)
    (hnd : M.collisionLinks.Nodup) (D : List Link)
    (hD : dynamicLinksOf M (createStaticSDFs M).1 (activeLinksOf M) = some D) :
    (∀ x ∈ M.collisionLinks,
        x ∈ (createStaticSDFs M).1 ∨ x ∈ activeLinksOf M ∨ x ∈ D) ∧
    (∀ x ∈ (createStaticSDFs M).1, x ∉ D) ∧
    (∀ x ∈ activeLinksOf M, x ∉ D) := by
  simp only [dynamicLinksOf] at hD
  cases h1 : eraseChain M.collisionLinks (createStaticSDFs M).1 with
  | none => rw [h1] at hD; cases hD
  | some d1 =>
    rw [h1] at hD
    refine ⟨?_, ?_, ?_⟩
    · intro x hx
      by_cases hS : x ∈ (createStaticSDFs M).1
      · exact Or.inl hS
      by_cases hA : x ∈ activeLinksOf M
      · exact Or.inr (Or.inl hA)
      refine Or.inr (Or.inr ?_)
      exact eraseChain_mem (activeLinksOf M) d1 D x hA
        (eraseChain_mem (createStaticSDFs M).1 M.collisionLinks d1 x hS hx h1) hD
    · intro x hS hmem
      have hx1 : x ∈ d1 := (eraseChain_sublist (activeLinksOf M) d1 D hD).subset hmem
      exact eraseChain_not_mem (createStaticSDFs M).1 M.collisionLinks d1 x hS
        (List.nodup_iff_count_le_one.mp hnd x) h1 hx1
    · intro x hA hmem
      have hc : d1.count x ≤ 1 :=
        le_trans ((eraseChain_sublist (createStaticSDFs M).1 M.collisionLinks d1
            h1).count_le x)
          (List.nodup_iff_count_le_one.mp hnd x)
      exact eraseChain_not_mem (activeLinksOf M) d1 D x hA hc hD hmem

/-- C1 (witness): the amended coverage statement applied to the concrete model
`M3`, whose dynamic-class construction completes with the single dynamic link
`d1`. -/
theorem C1_cover_dynamic_disjoint_witness :
    "d1" ∈ (createStaticSDFs M3).1 ∨ "d1" ∈ activeLinksOf M3 ∨ "d1" ∈ ["d1"] :=
  (C1_cover_dynamic_disjoint M3 (by decide) ["d1"] (by decide)).1 "d1" (by decide)

/-- C2 (counterexample): the builder does not create one field per independent
fixed subtree.  In the model `M2` all static parts lie in the single fixed
subtree rooted at `base`, so the spec prescribes one shared field, yet the
builder constructs two — one per static part. -/
theorem C2_per_subtree_cex :
    ((createStaticSDFs M2).2).length = 2 ∧ specStaticFieldCount M2 = 1 ∧
    ((createStaticSDFs M2).2).length ≠ specStaticFieldCount M2 := by decide

/-- C2 (amended): for every kinematic model the builder creates exactly one
static field per static part, in classification order, each holding only that
part's shapes at the pose taken from the fixed-transform map entry by which
the walk reached the part. -/
theorem C2_one_field_per_static_part {P : Type} (M : RobotModel P) :
    ((createStaticSDFs M).2).map Prod.fst = (createStaticSDFs M).1 := by
  unfold createStaticSDFs
  by_cases h : M.rootLink ∈ M.collisionLinks <;>
    simp [h, aaftGo_map_fst M (staticFuel M) (M.fixedTransforms M.rootLink) [] [] [] rfl]

/-- C3 (counterexample): the sphere count tested by the retry loop is not the
count produced by that attempt's packing call.  With a packer returning
exactly one sphere per call, attempt index 1 (the second attempt) itself
produces 1 sphere — at most one, with fewer than 10 attempts run — yet the
trace ends there (length 2, no third attempt at `v/4`), because the loop's
exit test reads the accumulated count 2: `fillWithSpheres` appends to
`active_spheres_[i]` instead of replacing it. -/
theorem C3_cumulative_count_cex :
    (fillSpheresTrace packOne 1 1 1 10 1 [])[1]? =
      some { v := 1/2, exB := 2, inB := 2, produced := 1, tested := 2 } ∧
    (fillSpheresTrace packOne 1 1 1 10 1 []).length = 2 := by
  norm_num [fillSpheresTrace, packOne]

/-- C3 (amended): the retry loop runs at most 10 attempts (and always
terminates); attempt `j` rebuilds the field at voxel size `voxel / 2 ^ j` with
both truncation bands scaled by the inverse resolution ratio `2 ^ j`; the
count tested after each attempt is the cumulative number of spheres packed by
all attempts so far; whenever that cumulative count is at most one and fewer
than 10 attempts have run, a next attempt follows at half the voxel size, and
whenever it exceeds one the loop stops with that attempt as the last. -/
theorem C3_retry_loop (pack : ℚ → ℚ → ℚ → List Sphere) (voxel ex inb : ℚ)
    (hv : voxel ≠ 0) :
    (fillSpheresTrace pack voxel ex inb 10 voxel []).length ≤ 10 ∧
    (∀ (j : Nat) (a : Attempt),
        (fillSpheresTrace pack voxel ex inb 10 voxel [])[j]? = some a →
        a.v = voxel / 2 ^ j ∧ a.exB = 2 ^ j * ex ∧ a.inB = 2 ^ j * inb ∧
          a.tested = (((fillSpheresTrace pack voxel ex inb 10 voxel []).take (j + 1)).map
            Attempt.produced).sum) ∧
    (∀ (j : Nat) (a : Attempt),
        (fillSpheresTrace pack voxel ex inb 10 voxel [])[j]? = some a →
        a.tested ≤ 1 → j + 1 < 10 →
        j + 1 < (fillSpheresTrace pack voxel ex inb 10 voxel []).length) ∧
    (∀ (j : Nat) (a : Attempt),
        (fillSpheresTrace pack voxel ex inb 10 voxel [])[j]? = some a →
        1 < a.tested →
        (fillSpheresTrace pack voxel ex inb 10 voxel []).length = j + 1) := by
  refine ⟨fillSpheresTrace_length_le pack voxel ex inb 10 voxel [], ?_, ?_, ?_⟩
  · intro j a ha
    have he := fillSpheresTrace_entry pack voxel ex inb hv 10 0 voxel [] (by norm_num) j a ha
    have ht := fillSpheresTrace_tested pack voxel ex inb 10 voxel [] j a ha
    simp only [Nat.zero_add] at he
    simp only [List.length_nil, Nat.zero_add] at ht
    exact ⟨he.1, he.2.1, he.2.2, ht⟩
  · exact fun j a ha => fillSpheresTrace_continue pack voxel ex inb 10 voxel [] j a ha
  · exact fun j a ha => fillSpheresTrace_stop pack voxel ex inb 10 voxel [] j a ha

/-- C3 (witness): the amended retry-loop statement applied to the
one-sphere-per-call packer at nominal voxel size 1. -/
theorem C3_retry_loop_witness :
    (fillSpheresTrace packOne 1 1 1 10 1 []).length ≤ 10 :=
  (C3_retry_loop packOne 1 1 1 (by norm_num)).1

/-- C4 (counterexample): a per-parent result can report `hasGradient = true`
with a gradient that is not a unit vector.  Two candidates at equal distance
contribute exactly opposite unit gradients with equal weights; the weighted
sum cancels to zero, the final renormalization leaves the zero vector, and the
result carries `hasGradient = true` with the zero gradient. -/
theorem C4_gradient_unit_cex :
    (distanceSelfHelper 10 dataCancel sdfsCancel).hasGradient = true ∧
    (distanceSelfHelper 10 dataCancel sdfsCancel).gradient = R3.zero ∧
    R3.sqnorm R3.zero ≠ 1 := by
  norm_num [distanceSelfHelper, distanceSelfHelperFull, helperLoop, helperStep,
    helperChild, sphereStep, dataCancel, sdfsCancel, accPlusX, accMinusX, tfm0,
    inertSDF, isGradient, approxEqual, approxEps, V3.sum, V3.zero, R3.zero,
    vdbNormalize, V3.sqnorm, V3.toR3, R3.smul, R3.add, R3.sqnorm, eigenNormalize,
    Real.sqrt_one, updateMin]

/-- C4 (amended): for every per-parent distance result, if the total
accumulated weight is zero then the has-gradient flag is false and the
gradient is the zero vector; and whenever the result reports
`hasGradient = true`, the returned gradient is either a unit vector or — when
the weighted contributions cancel — the zero vector. -/
theorem C4_gradient_normalization (bg : ℚ) (data : DistanceQueryData)
    (sdfs : ClassType → List SDFData) :
    ((distanceSelfHelperFull bg data sdfs).totalWeights = 0 →
      (distanceSelfHelper bg data sdfs).hasGradient = false ∧
      (distanceSelfHelper bg data sdfs).gradient = R3.zero) ∧
    ((distanceSelfHelper bg data sdfs).hasGradient = true →
      R3.sqnorm (distanceSelfHelper bg data sdfs).gradient = 1 ∨
      (distanceSelfHelper bg data sdfs).gradient = R3.zero) := by
  have hw : 0 ≤ (distanceSelfHelperFull bg data sdfs).totalWeights ∧
      ((distanceSelfHelperFull bg data sdfs).res.hasGradient = true →
        0 < (distanceSelfHelperFull bg data sdfs).totalWeights) := by
    unfold distanceSelfHelperFull
    exact helperLoop_weights bg data sdfs _ _ (le_refl 0)
      (fun h => absurd h Bool.false_ne_true)
  have hgz : (distanceSelfHelperFull bg data sdfs).res.gradient = R3.zero := by
    unfold distanceSelfHelperFull
    exact helperLoop_gradient_unchanged bg data sdfs _ _
  constructor
  · intro h0
    have hng : (distanceSelfHelperFull bg data sdfs).res.hasGradient = false := by
      cases hgt : (distanceSelfHelperFull bg data sdfs).res.hasGradient
      · rfl
      · have := hw.2 hgt
        rw [h0] at this
        exact absurd this (lt_irrefl 0)
    simp only [distanceSelfHelper]
    rw [hng]
    simp only [Bool.false_eq_true, if_false]
    exact ⟨hng, hgz⟩
  · intro hgt
    simp only [distanceSelfHelper] at hgt ⊢
    cases hres : (distanceSelfHelperFull bg data sdfs).res.hasGradient
    · rw [hres] at hgt
      simp only [Bool.false_eq_true, if_false] at hgt
      rw [hres] at hgt
      exact absurd hgt Bool.false_ne_true
    · rw [if_pos rfl]
      by_cases htw : (distanceSelfHelperFull bg data sdfs).totalWeights = 0
      · rw [if_pos htw]
        exact Or.inr rfl
      · rw [if_neg htw]
        exact eigenNormalize_unit_or_zero _

/-- C4 (witness): the amended statement's zero-total-weight part applied to the
concrete one-candidate plan whose only candidate gradient is discarded. -/
theorem C4_gradient_normalization_witness :
    (distanceSelfHelper 10 dataSumZero sdfsSumZero).hasGradient = false ∧
    (distanceSelfHelper 10 dataSumZero sdfsSumZero).gradient = R3.zero :=
  (C4_gradient_normalization 10 dataSumZero sdfsSumZero).1 (by
    norm_num [distanceSelfHelperFull, helperLoop, helperStep, helperChild, sphereStep,
      dataSumZero, sdfsSumZero, accSumZero, tfm0, inertSDF, isGradient, approxEqual,
      approxEps, V3.sum, V3.zero, updateMin])

/-- C5: the discard test of the gradient blend is the component sum, not the
vector itself.  In the concrete run the single candidate contributes a valid
distance 5 (it becomes the named nearest neighbour), its raw index-space
gradient at the minimizing voxel is `(1, -1, 0)` — a nonzero vector — yet the
candidate is discarded from the blend (`hasGradient` stays false) because the
components sum to zero, contradicting the claim that only the exactly-zero
gradient is discarded. -/
theorem C5_sum_zero_discard :
    isGradient accSumZero ⟨0, 0, 0⟩ = ⟨1, -1, 0⟩ ∧
    (⟨1, -1, 0⟩ : V3) ≠ V3.zero ∧
    V3.sum ⟨1, -1, 0⟩ = 0 ∧
    (distanceSelfHelper 10 dataSumZero sdfsSumZero).minDistance = 5 ∧
    (distanceSelfHelper 10 dataSumZero sdfsSumZero).linkName1 = "c1" ∧
    (distanceSelfHelper 10 dataSumZero sdfsSumZero).hasGradient = false := by
  norm_num [distanceSelfHelper, distanceSelfHelperFull, helperLoop, helperStep,
    helperChild, sphereStep, dataSumZero, sdfsSumZero, accSumZero, tfm0, inertSDF,
    isGradient, approxEqual, approxEps, V3.sum, V3.zero, updateMin]

/-- C6: a request naming a joint group absent from the kinematic model fails
immediately — the null group pointer is dereferenced before any write to the
result — so no partial result is produced and the result object is left
unmodified. -/
theorem C6_unknown_group_rejected (E : Engine) (req : DistanceRequest)
    (st : RobotState) (h : E.hasGroup req.groupName = false) :
    distanceSelf E req st = none := by
  simp [distanceSelf, h]

/-- C6 (witness): the rejection applied to an engine whose model has no joint
groups. -/
theorem C6_unknown_group_rejected_witness :
    distanceSelf engineNoGroups { groupName := "manipulator", gradient := false }
      stateId = none :=
  C6_unknown_group_rejected engineNoGroups
    { groupName := "manipulator", gradient := false } stateId rfl

/-- C7: on a model with zero Active parts — or one whose every query plan is
marked empty — `distanceSelf` does not execute to completion with an empty
result set: the global-minimum scan dereferences `res.distance.begin()` on the
empty result map (undefined behaviour, modelled as abrupt failure), refuting
the claim that the query completes and yields an empty per-parent result
set. -/
theorem C7_zero_active_fails :
    distanceSelf engineNoActive { groupName := "manipulator", gradient := true }
      stateId = none ∧
    distanceSelf engineEmptyPlans { groupName := "manipulator", gradient := true }
      stateId = none := by
  constructor <;>
    simp [distanceSelf, distanceSelfBody, engineNoActive, engineEmptyPlans,
      createDefaultDistanceQuery, List.range_succ, List.enum, List.enumFrom]

/-- C8: the query-required decision returns true whenever the allow-list has
no entry for the pair, returns false only for an explicit always-allowed
entry, answers identically for `(a, b)` and `(b, a)`, and a null allow-list
makes every pair required. -/
theorem C8_allow_list_default (a b : String) (m : ACM) :
    (acmLookup m a b = none → isQueryRequired a b (some m) = true) ∧
    (isQueryRequired a b (some m) = false → acmLookup m a b = some ACType.always) ∧
    (∀ acm : Option ACM, isQueryRequired a b acm = isQueryRequired b a acm) ∧
    isQueryRequired a b none = true := by
  refine ⟨?_, ?_, ?_, rfl⟩
  · intro h
    simp [isQueryRequired, isCollisionAllowed, h]
  · intro h
    have hic : isCollisionAllowed a b (some m) = true := by
      cases hb : isCollisionAllowed a b (some m)
      · rw [isQueryRequired, hb] at h
        exact absurd h (by decide)
      · rfl
    cases hl : acmLookup m a b with
    | none =>
      rw [isCollisionAllowed, hl] at hic
      exact absurd hic Bool.false_ne_true
    | some t =>
      rw [isCollisionAllowed, hl] at hic
      exact congrArg some (beq_iff_eq.mp hic)
  · intro acm
    cases acm with
    | none => rfl
    | some m2 => simp [isQueryRequired, isCollisionAllowed, acmLookup_symm m2 a b]

/-- C8 (witness): the no-entry default applied to an empty allow-list. -/
theorem C8_allow_list_default_witness :
    isQueryRequired "linkA" "linkB" (some ([] : ACM)) = true :=
  (C8_allow_list_default "linkA" "linkB" []).1 rfl

/-- C9 (counterexample): a query against a field into which no shape was ever
inserted does not return the configured background.  In cached-accessor mode
the code logs an error and returns 0 — distinct from the background 1/2 — and
in thread-safe mode it dereferences the null grid pointer (abrupt failure)
instead of returning anything. -/
theorem C9_empty_field_cex :
    (VDBField.create (1/50) (1/2)).getDistance ⟨0, 0, 0⟩ false = some 0 ∧
    (VDBField.create (1/50) (1/2)).getDistance ⟨0, 0, 0⟩ true = none ∧
    (0 : ℚ) ≠ 1/2 := by
  norm_num [VDBField.create, VDBField.getDistance]

/-- C9 (amended): for every voxel size, background value and query point, a
freshly constructed (empty) field returns 0 in cached-accessor mode regardless
of the configured background, and in thread-safe mode the query dereferences
the null grid and does not return a value. -/
theorem C9_empty_field_behavior (voxelSize bgv : ℚ) (c : Coord) :
    (VDBField.create voxelSize bgv).getDistance c false = some 0 ∧
    (VDBField.create voxelSize bgv).getDistance c true = none := by
  constructor <;> rfl

/-- C10: the self-distance result does not depend on which joint group the
request names.  For any engine, robot state and gradient flag, two requests
naming two groups both present in the model produce identical results: the
group's link list is fetched on line 430 but never used, and every query plan
spans all active links. -/
theorem C10_group_independent (E : Engine) (st : RobotState) (g1 g2 : String)
    (grad : Bool) (h1 : E.hasGroup g1 = true) (h2 : E.hasGroup g2 = true) :
    distanceSelf E { groupName := g1, gradient := grad } st =
      distanceSelf E { groupName := g2, gradient := grad } st := by
  simp [distanceSelf, h1, h2]

/-- C10 (witness): group-independence applied to the two-group engine on a
nontrivial query. -/
theorem C10_group_independent_witness :
    distanceSelf engineTwoGroups { groupName := "left", gradient := true } stateId =
      distanceSelf engineTwoGroups { groupName := "right", gradient := true } stateId :=
  C10_group_independent engineTwoGroups stateId "left" "right" true rfl rfl

end OpenVDBDistanceFieldSpec

